import Mathlib

/-!
Shallow embedding of the Upwork scraper's Baserow pipeline
(`src/data/baserow.py`, `src/main.py`, `src/utils/helpers.py`).

Python dictionaries holding row data are modelled as association lists
from field names to `Val`, a model of the Python values that flow
through the pipeline.  Nested containers (dicts/lists) are modelled by
`Val.vNested s` where `s` is the Python `str()` rendering of the
container: the pipeline only ever type-tests such values
(`isinstance(value, (dict, list))`), stringifies them (`str(value)`),
or passes them to `int(...)` (which raises `TypeError`), so the
rendering is all that is observable.  Floats are modelled as rationals
(no claim depends on binary floating-point rounding).  Times are
modelled as integer counts of seconds.
-/

/-- Model of a Python value stored in a row field. -/
inductive Val where
  | vInt : Int → Val
  | vStr : String → Val
  | vFloat : ℚ → Val
  | vNone : Val
  | vNested : String → Val
deriving DecidableEq, Repr

/-- A Baserow row / job record: a Python dict, as an association list
(first binding of a key wins, mirroring dict key uniqueness). -/
abbrev Row := List (String × Val)

/-- Model of Python `dict.get(key)` (returns `None` when absent,
modelled as `Option`). -/
def rowGet? (r : Row) (k : String) : Option Val :=
  (r.find? (fun p => p.1 == k)).map (·.2)

/-- Model of Python `dict.get(key, default)`. -/
def rowGetD (r : Row) (k : String) (d : Val) : Val :=
  (rowGet? r k).getD d

/-- Whitespace as recognized by Python's `str.split()`/`strip()`
(the rarer `\x0b`/`\x0c` are not modelled). -/
def isPySpace (c : Char) : Bool :=
  c == ' ' || c == '\t' || c == '\n' || c == '\r'

/-- Strips leading and trailing whitespace. -/
def pyTrim (l : List Char) : List Char :=
  ((l.dropWhile isPySpace).reverse.dropWhile isPySpace).reverse

/-- The value of a non-empty all-digit character run, `none`
otherwise. -/
def digitsToNat? (l : List Char) : Option Nat :=
  if l ≠ [] ∧ l.all Char.isDigit then
    some (l.foldl (fun a c => a * 10 + (c.toNat - 48)) 0)
  else none

/-- Model of Python `int(s)` on a string: optional surrounding
whitespace, an optional sign, then decimal digits.  (Underscore
grouping and non-ASCII digits accepted by CPython are not modelled;
no pipeline value uses them.) -/
def parsePyInt (s : String) : Option Int :=
  match pyTrim s.data with
  | '-' :: r => (digitsToNat? r).map (fun n => -(n : Int))
  | '+' :: r => (digitsToNat? r).map (fun n => (n : Int))
  | r => (digitsToNat? r).map (fun n => (n : Int))

/-- Model of Python `int(x)` for a `Val`: ints pass through, strings
are parsed, floats truncate toward zero, `None` and nested containers
raise `TypeError` (modelled as `none`). -/
def intOfVal : Val → Option Int
  | Val.vInt n => some n
  | Val.vStr s => parsePyInt s
  | Val.vFloat q => some (q.num.tdiv (q.den : Int))
  | Val.vNone => none
  | Val.vNested _ => none

/-- Model of Python `str(x)` for a `Val`.  `str` of a nested container
is its stored rendering; `str` of a float is modelled by the rational's
rendering (no claim inspects it). -/
def pyStr : Val → String
  | Val.vInt n => toString n
  | Val.vStr s => s
  | Val.vFloat q => toString q
  | Val.vNone => "None"
  | Val.vNested s => s

/-- One field value after `upload_multiple_rows`'s nested-data
handling (`baserow.py` lines 361-367): dicts/lists are converted with
`str(value)`, everything else is kept. -/
def processVal : Val → Val
  | Val.vNested s => Val.vStr s
  | v => v

/-- A row after `upload_multiple_rows`'s per-field nested-data
handling (`processed_row` in `baserow.py` lines 362-367). -/
def processRow (r : Row) : Row :=
  r.map (fun p => (p.1, processVal p.2))

/-- The row as returned by the store after a successful create: the
posted fields plus the server-assigned `id`. -/
def insertId (n : Nat) (r : Row) : Row :=
  ("id", Val.vInt (n : Int)) :: r

/-- The duplicate test of `upload_multiple_rows` (`baserow.py` lines
343-356), for one existing row against one incoming row: try
`int(existing.get(field, 0)) == int(new.get(field, 0))`; if either
conversion raises (`ValueError`/`TypeError`), fall back to
`str(existing.get(field)) == str(new.get(field))`. -/
def matchesDedup (field : String) (existing new : Row) : Bool :=
  match intOfVal (rowGetD existing field (Val.vInt 0)) with
  | some ev =>
    match intOfVal (rowGetD new field (Val.vInt 0)) with
    | some nv => ev == nv
    | none =>
      pyStr ((rowGet? existing field).getD Val.vNone)
        == pyStr ((rowGet? new field).getD Val.vNone)
  | none =>
    pyStr ((rowGet? existing field).getD Val.vNone)
      == pyStr ((rowGet? new field).getD Val.vNone)

/-- The comparison policy as the spec words it: attempt integer
conversion of both sides first; on a conversion failure on either
side, compare by string equality. -/
def specMatch (field : String) (existing new : Row) : Bool :=
  match intOfVal (rowGetD existing field (Val.vInt 0)),
        intOfVal (rowGetD new field (Val.vInt 0)) with
  | some ev, some nv => ev == nv
  | _, _ =>
    pyStr ((rowGet? existing field).getD Val.vNone)
      == pyStr ((rowGet? new field).getD Val.vNone)

/-- A record is skipped when deduplication is on, the snapshot of
existing rows is non-empty, and some snapshot row matches
(`baserow.py` lines 340-359). -/
def skipCond (dedup : Bool) (field : String) (snap : List Row) (r : Row) : Bool :=
  dedup && !snap.isEmpty && snap.any (fun e => matchesDedup field e r)

/-- The loop of `upload_multiple_rows` (`baserow.py` lines 337-378).
`snap` is the snapshot of existing rows fetched once before the loop;
`addOk k` tells whether the `k`-th `add_row` network call succeeds;
`nid` is the next server-assigned row id.  Returns the created rows as
returned by the store. -/
def uploadGo (dedup : Bool) (field : String) (snap : List Row)
    (addOk : Nat → Bool) : List Row → Nat → Nat → List Row
  | [], _, _ => []
  | r :: rs, aIdx, nid =>
    if skipCond dedup field snap r then
      uploadGo dedup field snap addOk rs aIdx nid
    else if addOk aIdx then
      insertId nid (processRow r) :: uploadGo dedup field snap addOk rs (aIdx + 1) (nid + 1)
    else
      uploadGo dedup field snap addOk rs (aIdx + 1) nid

/-- `BaserowService.upload_multiple_rows` (`baserow.py` lines
302-380): early return on an empty batch, then the per-row loop
against the snapshot `snap` fetched once up front. -/
def uploadMultipleRows (dedup : Bool) (field : String) (snap : List Row)
    (rows : List Row) (addOk : Nat → Bool) (startId : Nat) : List Row :=
  if rows.isEmpty then [] else uploadGo dedup field snap addOk rows 0 startId

/-- The rows created when every record is uploaded (no skip, all adds
succeed), with consecutive server ids from `nid`. -/
def createAll : List Row → Nat → List Row
  | [], _ => []
  | r :: rs, nid => insertId nid (processRow r) :: createAll rs (nid + 1)

/-- Tokenizer behind `pySplit`: accumulates the current token
(reversed) and emits it at each whitespace run. -/
def pySplitGo : List Char → List Char → List String
  | [], cur => if cur = [] then [] else [String.mk cur.reverse]
  | c :: rest, cur =>
    if isPySpace c then
      if cur = [] then pySplitGo rest []
      else String.mk cur.reverse :: pySplitGo rest []
    else pySplitGo rest (c :: cur)

/-- Model of Python `str.split()` with no arguments: split on runs of
whitespace, discarding empty pieces. -/
def pySplit (s : String) : List String :=
  pySplitGo s.data []

/-- `parse_relative_time` from `src/utils/helpers.py` lines 249-309.
Times are modelled as integer seconds; `ref` is the reference time
(the source's `reference_time`, already UTC).  Returns the computed
time and a success flag. -/
def parseRelativeTime (timeStr : String) (ref : Int) : Int × Bool :=
  if timeStr = "yesterday" then (ref - 86400, true)
  else if timeStr = "last week" then (ref - 7 * 86400, true)
  else if timeStr = "last month" then (ref - 30 * 86400, true)
  else if timeStr = "last year" then (ref - 365 * 86400, true)
  else
    let parts := pySplit timeStr
    if 3 ≤ parts.length ∧ parts.getLast? = some "ago" then
      match parsePyInt (parts.getD 0 "") with
      | none => (ref, false)
      | some n =>
        let unit := parts.getD 1 ""
        if unit = "hour" ∨ unit = "hours" then (ref - n * 3600, true)
        else if unit = "minute" ∨ unit = "minutes" then (ref - n * 60, true)
        else if unit = "day" ∨ unit = "days" then (ref - n * 86400, true)
        else if unit = "week" ∨ unit = "weeks" then (ref - n * (7 * 86400), true)
        else if unit = "month" ∨ unit = "months" then (ref - n * (30 * 86400), true)
        else if unit = "year" ∨ unit = "years" then (ref - n * (365 * 86400), true)
        else (ref, false)
    else (ref, false)

/-- The per-unit offset in seconds recognized by `parse_relative_time`
(months approximated as 30 days, years as 365 days, as in the source). -/
def unitOffset (unit : String) : Option Int :=
  if unit = "hour" ∨ unit = "hours" then some 3600
  else if unit = "minute" ∨ unit = "minutes" then some 60
  else if unit = "day" ∨ unit = "days" then some 86400
  else if unit = "week" ∨ unit = "weeks" then some (7 * 86400)
  else if unit = "month" ∨ unit = "months" then some (30 * 86400)
  else if unit = "year" ∨ unit = "years" then some (365 * 86400)
  else none

/-- Splits a character run at every `'.'`, keeping empty pieces
(Python `str.split('.')`). -/
def splitOnDotGo : List Char → List Char → List (List Char)
  | [], cur => [cur.reverse]
  | c :: rest, cur =>
    if c = '.' then cur.reverse :: splitOnDotGo rest []
    else splitOnDotGo rest (c :: cur)

/-- Model of Python `float(s)` on a string: optional sign, then
`digits`, `digits.digits`, `.digits` or `digits.`.  (Exponents,
`inf`/`nan` and underscore grouping are not modelled; pipeline rating
strings are plain decimals such as `"4.92"`.) -/
def parsePyFloat (s : String) : Option ℚ :=
  let t : ℚ × List Char :=
    match pyTrim s.data with
    | '-' :: r => (-1, r)
    | '+' :: r => (1, r)
    | r => (1, r)
  match splitOnDotGo t.2 [] with
  | [a] => (digitsToNat? a).map (fun n => t.1 * (n : ℚ))
  | [a, b] =>
    if a = [] ∧ b = [] then none
    else if (a = [] ∨ (digitsToNat? a).isSome)
        ∧ (b = [] ∨ (digitsToNat? b).isSome) then
      some (t.1 * (((digitsToNat? a).getD 0 : ℚ)
        + ((digitsToNat? b).getD 0 : ℚ) / (10 ^ b.length : ℚ)))
    else none
  | _ => none

/-- Model of Python `float(x)` for a `Val`: numbers pass through,
strings are parsed as decimals, `None` and nested containers raise
`TypeError` (modelled as `none`); strings that fail to parse raise
`ValueError` (also `none` — both exception types propagate
identically at the one call site). -/
def floatOfVal : Val → Option ℚ
  | Val.vInt n => some (n : ℚ)
  | Val.vFloat q => some q
  | Val.vStr s => parsePyFloat s
  | Val.vNone => none
  | Val.vNested _ => none

/-- Python `repr` of a value inside a container rendering (string
escaping and float formatting are simplified; no claim inspects the
result). -/
def reprVal : Val → String
  | Val.vStr s => "'" ++ s ++ "'"
  | v => pyStr v

/-- Model of Python `str(d)` for a dict. -/
def pyStrDict (d : List (String × Val)) : String :=
  "\x7b" ++ String.intercalate ", "
    (d.map (fun p => "'" ++ p.1 ++ "': " ++ reprVal p.2)) ++ "\x7d"

/-- Rendering of a model time for `posted_time.isoformat()`; modelled
as the integer's decimal rendering (no claim inspects it). -/
def isoOfTime (t : Int) : String := toString t

/-- A raw scraped job record as consumed by `process_jobs_for_baserow`
(`src/main.py` lines 43-94).  Required-subscript fields
(`job["posted_time"]`, `job["job_uid"]`, `job["job_title"]`,
`job["job_url"]`) are structure fields; `.get`-accessed fields are
`Option`s whose `none` models an absent key. -/
structure RawJob where
  posted_time : String
  job_uid : Val
  job_title : Val
  job_url : Val
  description : Option Val
  client_info : Option (List (String × Val))
  job_details : Option (List (String × Val))
  skills : Option Val
  proposals : Option Val
deriving DecidableEq, Repr

/-- The error message raised by `float(...)` on a malformed rating
(propagates uncaught out of `process_jobs_for_baserow`). -/
def ratingErrMsg : String := "ValueError: could not convert string to float"

/-- The per-job body of `process_jobs_for_baserow` (`src/main.py`
lines 53-92).  Everything has a fallback except the rating conversion
`float(job.get("client_info", {}).get("rating", 0))`, which is not
wrapped in any `try` and therefore aborts the whole call on a
malformed value (modelled as `Except.error`). -/
def processJob (now : Int) (job : RawJob) : Except String Row :=
  let posted := parseRelativeTime job.posted_time now
  let jobUid : Int := (intOfVal job.job_uid).getD 0
  let ci : List (String × Val) := job.client_info.getD []
  let jd : List (String × Val) := job.job_details.getD []
  match floatOfVal (rowGetD ci "rating" (Val.vInt 0)) with
  | none => Except.error ratingErrMsg
  | some rating =>
    let status := if 0 < rating ∧ rating < 4 then "low_rating" else "scraped"
    Except.ok [
      ("job_uid", Val.vInt jobUid),
      ("job_title", job.job_title),
      ("job_url", job.job_url),
      ("posted_time", Val.vStr job.posted_time),
      ("posted_time_date", Val.vStr (isoOfTime posted.1)),
      ("description", job.description.getD (Val.vStr "")),
      ("location", rowGetD ci "location" (Val.vStr "")),
      ("rating", Val.vFloat rating),
      ("total_feedback", rowGetD ci "total_feedback" (Val.vStr "")),
      ("spent", rowGetD ci "spent" (Val.vStr "")),
      ("budget", rowGetD jd "budget" (Val.vStr "")),
      ("job_type", rowGetD jd "job_type" (Val.vStr "")),
      ("client_info", Val.vStr (pyStrDict ci)),
      ("job_details", Val.vStr (pyStrDict jd)),
      ("skills", Val.vStr (pyStr (job.skills.getD (Val.vNested "[]")))),
      ("proposals", job.proposals.getD (Val.vStr "")),
      ("status", Val.vStr status)]

/-- `process_jobs_for_baserow` (`src/main.py` lines 43-94): processes
jobs in order; an uncaught exception while processing any job aborts
the whole call (the partial `processed_jobs` list is lost). -/
def processJobsForBaserow (now : Int) : List RawJob → Except String (List Row)
  | [] => Except.ok []
  | j :: js => do
    let r ← processJob now j
    let rs ← processJobsForBaserow now js
    return r :: rs

/-- Reads exactly `n` decimal digits, returning their value and the
remaining characters. -/
def takeDigitsGo : Nat → Nat → List Char → Option (Nat × List Char)
  | 0, acc, l => some (acc, l)
  | _ + 1, _, [] => none
  | n + 1, acc, c :: l =>
    if c.isDigit then takeDigitsGo n (acc * 10 + (c.toNat - 48)) l else none

/-- Reads exactly `n` decimal digits from the front of `l`. -/
def takeDigits (n : Nat) (l : List Char) : Option (Nat × List Char) :=
  takeDigitsGo n 0 l

/-- Consumes an expected single character. -/
def expectChar (c : Char) : List Char → Option (List Char)
  | [] => none
  | x :: l => if x = c then some l else none

/-- Gregorian leap-year test. -/
def isLeap (y : Nat) : Bool :=
  (y % 4 == 0 && y % 100 != 0) || y % 400 == 0

/-- Number of days in a month of the proleptic Gregorian calendar. -/
def daysInMonth (y m : Nat) : Nat :=
  if m = 2 then (if isLeap y then 29 else 28)
  else if m = 4 ∨ m = 6 ∨ m = 9 ∨ m = 11 then 30
  else 31

/-- Days from 1970-01-01 to the civil date `y-m-d` (standard
days-from-civil algorithm, valid for the 4-digit years of ISO
strings). -/
def daysSinceEpoch (y m d : Nat) : Int :=
  let y' : Nat := if m ≤ 2 then y - 1 else y
  let era : Nat := y' / 400
  let yoe : Nat := y' % 400
  let mp : Nat := (m + 9) % 12
  let doy : Nat := (153 * mp + 2) / 5 + (d - 1)
  let doe : Nat := yoe * 365 + yoe / 4 - yoe / 100 + doy
  ((era * 146097 + doe : Nat) : Int) - 719468

/-- Seconds from the epoch to midnight of the civil date `y-m-d`. -/
def civilSecs (y m d : Nat) : Int := daysSinceEpoch y m d * 86400

/-- Parses the optional `:SS` seconds part of an ISO time. -/
def parseIsoSecPart : List Char → Option (Nat × List Char)
  | ':' :: r =>
    match takeDigits 2 r with
    | some p => if 59 < p.1 then none else some p
    | none => none
  | l => some (0, l)

/-- Skips the optional fractional-seconds part (1 to 6 digits after a
dot; the sub-second value is dropped, see `parseIso`). -/
def parseIsoFracPart : List Char → Option (List Char)
  | '.' :: r =>
    let ds := r.takeWhile Char.isDigit
    if 1 ≤ ds.length ∧ ds.length ≤ 6 then some (r.drop ds.length) else none
  | l => some l

/-- Parses the optional `+HH:MM`/`-HH:MM` offset ending the string;
returns whether an offset was present (the parsed datetime is
timezone-aware). -/
def parseIsoOffPart : List Char → Option Bool
  | [] => some false
  | sgn :: r =>
    if sgn = '+' ∨ sgn = '-' then
      match takeDigits 2 r with
      | some oh =>
        match expectChar ':' oh.2 with
        | some r3 =>
          match takeDigits 2 r3 with
          | some om =>
            if 23 < oh.1 ∨ 59 < om.1 ∨ om.2 ≠ [] then none else some true
          | none => none
        | none => none
      | none => none
    else none

/-- Parses `HH:MM`, optional `:SS`, optional fraction and optional
offset; returns seconds-of-day and awareness. -/
def parseIsoClock (l : List Char) : Option (Nat × Bool) :=
  match takeDigits 2 l with
  | none => none
  | some h =>
    match expectChar ':' h.2 with
    | none => none
    | some r2 =>
      match takeDigits 2 r2 with
      | none => none
      | some mi =>
        if 23 < h.1 ∨ 59 < mi.1 then none
        else
          match parseIsoSecPart mi.2 with
          | none => none
          | some ss =>
            match parseIsoFracPart ss.2 with
            | none => none
            | some r5 =>
              match parseIsoOffPart r5 with
              | none => none
              | some aware => some (h.1 * 3600 + mi.1 * 60 + ss.1, aware)

/-- Model of `datetime.fromisoformat` as used after the source's
`.replace('Z', '+00:00')`: `YYYY-MM-DD`, optionally followed by a
`'T'`/`' '` separator and `HH:MM`, optional `:SS`, optional fractional
digits, and an optional `+HH:MM`/`-HH:MM` offset.  Returns the
timestamp in seconds and whether the result is timezone-aware.  The
offset's value and sub-second digits are dropped: an aware datetime is
never compared in the source (comparing it with the naive
`datetime.now()` raises `TypeError`), so only the awareness flag is
observable, and no claim exercises sub-second precision. -/
def parseIso (s : String) : Option (Int × Bool) :=
  match takeDigits 4 s.data with
  | none => none
  | some y =>
    match expectChar '-' y.2 with
    | none => none
    | some l2 =>
      match takeDigits 2 l2 with
      | none => none
      | some mo =>
        match expectChar '-' mo.2 with
        | none => none
        | some l4 =>
          match takeDigits 2 l4 with
          | none => none
          | some d =>
            if mo.1 < 1 ∨ 12 < mo.1 ∨ d.1 < 1 ∨ daysInMonth y.1 mo.1 < d.1 then
              none
            else
              match d.2 with
              | [] => some (civilSecs y.1 mo.1 d.1, false)
              | sep :: rest =>
                if sep = 'T' ∨ sep = ' ' then
                  match parseIsoClock rest with
                  | none => none
                  | some c =>
                    some (civilSecs y.1 mo.1 d.1 + (c.1 : Int), c.2)
                else none

/-- The row id value `row.get('id')` (`None` when absent). -/
def idValOf (r : Row) : Val := (rowGet? r "id").getD Val.vNone

/-- Python truthiness of a `Val` (`if row_id:`).  For a nested
container, truthiness is read off the rendering of the empty
containers; only ever applied to id values in the claims. -/
def truthyVal : Val → Bool
  | Val.vInt n => n != 0
  | Val.vStr s => s ≠ ""
  | Val.vFloat q => q ≠ 0
  | Val.vNone => false
  | Val.vNested s => s ≠ "[]" && s ≠ "\x7b\x7d"

/-- Character-level model of `row_date_str.replace('Z', '+00:00')`:
the pattern is a single character, so Python's leftmost
occurrence-by-occurrence replacement is exactly per-character
substitution. -/
def replaceZChars : List Char → List Char
  | [] => []
  | c :: l =>
    if c = 'Z' then '+' :: '0' :: '0' :: ':' :: '0' :: '0' :: replaceZChars l
    else c :: replaceZChars l

/-- `s.replace('Z', '+00:00')`. -/
def replaceZ (s : String) : String := ⟨replaceZChars s.data⟩

/-- The per-row deletion test of `clean_up_old_rows` (`baserow.py`
lines 410-431).  A row is deleted only when its date field holds a
non-empty string that parses to a timezone-naive instant strictly
before the cutoff.  Falsy values skip at `if not row_date_str`;
non-string truthy values raise `AttributeError` at `.replace` and are
skipped by the per-row handler; unparsable strings are logged and
skipped; timezone-aware results raise `TypeError` at the comparison
with the naive cutoff and are skipped by the per-row handler. -/
def shouldDeleteRow (cutoff : Int) (dateField : String) (r : Row) : Bool :=
  match (rowGet? r dateField).getD Val.vNone with
  | Val.vStr s =>
    if s = "" then false
    else
      match parseIso (replaceZ s) with
      | none => false
      | some td => if td.2 then false else decide (td.1 < cutoff)
  | _ => false

/-- The count returned by `clean_up_old_rows` (`baserow.py` lines
382-441): one per row whose deletion test passes and whose
`delete_row` call succeeds (`delOk` on its id). -/
def cleanUpOldRowsCount (now days : Int) (dateField : String)
    (delOk : Val → Bool) (rows : List Row) : Nat :=
  (rows.filter (fun r =>
    shouldDeleteRow (now - days * 86400) dateField r && delOk (idValOf r))).length

/-- The store contents after `clean_up_old_rows` (deletion is by row
id; faithful when ids are distinct). -/
def cleanUpOldRowsRemaining (now days : Int) (dateField : String)
    (delOk : Val → Bool) (rows : List Row) : List Row :=
  rows.filter (fun r =>
    !(shouldDeleteRow (now - days * 86400) dateField r && delOk (idValOf r)))

/-- The retry loop of `_request_with_retry` (`baserow.py` lines
114-146): `att i` is the outcome of the `i`-th attempt; on success the
response is returned, otherwise the loop counts down and the LAST
error is re-raised when attempts are exhausted.  The initial `"None"`
models `last_exception = None` (only reachable with `max_retries =
0`). -/
def requestAttempts {ρ : Type} (att : Nat → Except String ρ) :
    Nat → Nat → String → Except String ρ
  | 0, _, last => Except.error last
  | n + 1, i, _ =>
    match att i with
    | Except.ok r => Except.ok r
    | Except.error e => requestAttempts att n (i + 1) e

/-- `BaserowService._request_with_retry` (`baserow.py` lines 91-146). -/
def requestWithRetry {ρ : Type} (maxRetries : Nat)
    (att : Nat → Except String ρ) : Except String ρ :=
  requestAttempts att maxRetries 0 "None"

/-- One page of a Baserow listing response: its `results` and whether
a `next` page link is present. -/
structure Page where
  results : List Row
  next : Bool
deriving DecidableEq, Repr

/-- The pagination loop of `get_all_rows` (`baserow.py` lines
168-199).  `fetchPage p` is the outcome (after retries) of fetching
page `p`; any error anywhere in the loop is caught by the surrounding
`try` and the WHOLE call returns `[]`, discarding rows already
accumulated.  `fuel` bounds the unbounded `while True` loop. -/
def getAllRowsGo (fetchPage : Nat → Except String Page) :
    Nat → Nat → List Row → List Row
  | 0, _, acc => acc
  | fuel + 1, page, acc =>
    match fetchPage page with
    | Except.error _ => []
    | Except.ok pg =>
      if pg.results.isEmpty then acc
      else if !pg.next then acc ++ pg.results
      else getAllRowsGo fetchPage fuel (page + 1) (acc ++ pg.results)

/-- `BaserowService.get_all_rows` (`baserow.py` lines 148-199),
starting from page 1 with an empty accumulator. -/
def getAllRows (fetchPage : Nat → Except String Page) (fuel : Nat) : List Row :=
  getAllRowsGo fetchPage fuel 1 []

/-- `BaserowService.get_row` (`baserow.py` lines 201-223): the
response row on success, `None` on error. -/
def getRowOp : Except String Row → Option Row
  | Except.ok r => some r
  | Except.error _ => none

/-- `BaserowService.add_row` (`baserow.py` lines 225-248): the created
row on success, `None` on error. -/
def addRowOp : Except String Row → Option Row
  | Except.ok r => some r
  | Except.error _ => none

/-- `BaserowService.update_row` (`baserow.py` lines 250-275): the
updated row on success, `None` on error. -/
def updateRowOp : Except String Row → Option Row
  | Except.ok r => some r
  | Except.error _ => none

/-- `BaserowService.delete_row` (`baserow.py` lines 277-300): `True`
on success, `False` on error. -/
def deleteRowOp : Except String Unit → Bool
  | Except.ok _ => true
  | Except.error _ => false

/-- `str(row.get('job_uid', ''))` — the grouping key of
`find_duplicates` (`baserow.py` line 461). -/
def uidStr (r : Row) : String := pyStr (rowGetD r "job_uid" (Val.vStr ""))

/-- One step of collecting the dict keys of `find_duplicates` in
insertion order: a row contributes its stringified uid unless it is
empty or already present. -/
def collectUidsStep (acc : List String) (r : Row) : List String :=
  let u := uidStr r
  if u = "" ∨ u ∈ acc then acc else acc ++ [u]

/-- The distinct non-empty stringified uids of `rows`, in
first-occurrence order (the key order of the Python dict built by
`find_duplicates`). -/
def collectUids (rows : List Row) : List String :=
  rows.foldl collectUidsStep []

/-- `BaserowService.find_duplicates` (`baserow.py` lines 443-488):
group the rows by `str(row.get('job_uid', ''))`, skipping rows whose
stringified uid is empty, and keep only the groups with more than one
row.  Keys are in first-occurrence order and each group lists its rows
in store order, as for the Python dict. -/
def findDuplicates (rows : List Row) : List (String × List Row) :=
  ((collectUids rows).map
    (fun u => (u, rows.filter (fun r => uidStr r == u)))).filter
    (fun g => 1 < g.2.length)

/-- First component of the sort key of `delete_duplicates`
(`x.get('posted_time_date', '')`).  Non-string values would raise
`TypeError` inside Python's tuple comparison; the theorems assume
string-typed dates (`rowDateOk`). -/
def sortDateStr (r : Row) : String :=
  match rowGetD r "posted_time_date" (Val.vStr "") with
  | Val.vStr s => s
  | _ => ""

/-- Second component of the sort key of `delete_duplicates`
(`x.get('id', 0)`); theorems assume integer ids (`rowIdOk`). -/
def sortIdInt (r : Row) : Int :=
  match rowGetD r "id" (Val.vInt 0) with
  | Val.vInt n => n
  | _ => 0

/-- Ascending order on the `(posted_time_date, id)` sort key (Python
tuple comparison). -/
def keyLe (a b : Row) : Prop :=
  sortDateStr a < sortDateStr b ∨
    (sortDateStr a = sortDateStr b ∧ sortIdInt a ≤ sortIdInt b)

instance : DecidableRel keyLe := fun a b => by
  unfold keyLe; infer_instance

/-- The reversed order used when `keep_newest` is true
(`reverse=True`). -/
def descRel (a b : Row) : Prop := keyLe b a

instance : DecidableRel descRel := fun a b => by
  unfold descRel keyLe; infer_instance

/-- `sorted(rows, key=lambda x: (x.get('posted_time_date', ''),
x.get('id', 0)), reverse=keep_newest)` (`baserow.py` lines 574-581).
Insertion sort is stable, matching Python's stable sort; `reverse` is
modelled by sorting with the reversed relation, which also preserves
the original order of tied elements, as Python does. -/
def sortedGroup (keepNewest : Bool) (grp : List Row) : List Row :=
  if keepNewest then List.insertionSort descRel grp
  else List.insertionSort keyLe grp

/-- `rows_to_delete = sorted_rows[1:]` (`baserow.py` line 584). -/
def rowsToDelete (keepNewest : Bool) (grp : List Row) : List Row :=
  (sortedGroup keepNewest grp).tail

/-- One deletion attempt of `delete_duplicates` (`baserow.py` lines
587-595): the row is only deleted when `row.get('id')` is truthy and
the `delete_row` call succeeds (`delOk` on the id). -/
def delAttemptOk (delOk : Val → Bool) (r : Row) : Bool :=
  truthyVal (idValOf r) && delOk (idValOf r)

/-- All rows successfully deleted by `delete_duplicates`
(`baserow.py` lines 556-602), across all duplicate groups. -/
def deletedDupRows (keepNewest : Bool) (delOk : Val → Bool)
    (rows : List Row) : List Row :=
  (findDuplicates rows).foldr
    (fun g acc => (rowsToDelete keepNewest g.2).filter (delAttemptOk delOk) ++ acc)
    []

/-- The count returned by `delete_duplicates`: one per successful
deletion. -/
def deleteDuplicatesCount (keepNewest : Bool) (delOk : Val → Bool)
    (rows : List Row) : Nat :=
  (deletedDupRows keepNewest delOk rows).length

/-- The store contents after `delete_duplicates` (deletion is by row
id; faithful when ids are distinct, which the theorems hypothesize). -/
def storeAfterDeleteDuplicates (keepNewest : Bool) (delOk : Val → Bool)
    (rows : List Row) : List Row :=
  rows.filter (fun r =>
    !((deletedDupRows keepNewest delOk rows).any
      (fun d => idValOf d == idValOf r)))

/-- Well-formedness of a stored row's id: present, an integer, and
truthy — every real Baserow row has a positive integer id. -/
def rowIdOk (r : Row) : Bool :=
  match rowGet? r "id" with
  | some (Val.vInt n) => n != 0
  | _ => false

/-- Well-formedness of a stored row's `posted_time_date`: absent or a
string, as produced by the pipeline. -/
def rowDateOk (r : Row) : Bool :=
  match rowGet? r "posted_time_date" with
  | none => true
  | some (Val.vStr _) => true
  | _ => false

/-- A well-formed stored row (integer truthy id, string-typed date). -/
def rowWf (r : Row) : Bool := rowIdOk r && rowDateOk r

instance : IsTotal Row descRel :=
  ⟨by
    intro a b
    unfold descRel keyLe
    rcases lt_trichotomy (sortDateStr a) (sortDateStr b) with h | h | h
    · right; left; exact h
    · rcases le_total (sortIdInt a) (sortIdInt b) with h2 | h2
      · right; right; exact ⟨h, h2⟩
      · left; right; exact ⟨h.symm, h2⟩
    · left; left; exact h⟩

instance : IsTrans Row descRel :=
  ⟨by
    intro a b c h1 h2
    unfold descRel keyLe at *
    rcases h1 with h1 | ⟨he1, hi1⟩ <;> rcases h2 with h2 | ⟨he2, hi2⟩
    · exact Or.inl (lt_trans h2 h1)
    · exact Or.inl (he2 ▸ h1)
    · exact Or.inl (he1 ▸ h2)
    · exact Or.inr ⟨he2.trans he1, hi2.trans hi1⟩⟩

/-- A reference instant for the cleanup claims: 2026-10-12 00:00:00. -/
def c5Now : Int := civilSecs 2026 10 12

/-- A stored row whose `created_on` carries a trailing `Z`
(timezone-aware after the source's `Z` replacement), dated years
before the cutoff. -/
def c5RowAware : Row :=
  [("id", Val.vInt 1), ("created_on", Val.vStr "2020-01-01T00:00:00Z")]

/-- The same old instant written without timezone suffix
(timezone-naive). -/
def c5RowNaive : Row :=
  [("id", Val.vInt 2), ("created_on", Val.vStr "2020-01-01T00:00:00")]

/-- A naive row dated 31 days before `c5Now`. -/
def c5Row31 : Row :=
  [("id", Val.vInt 3), ("created_on", Val.vStr "2026-09-11T00:00:00")]

/-- A naive row dated 29 days before `c5Now`. -/
def c5Row29 : Row :=
  [("id", Val.vInt 4), ("created_on", Val.vStr "2026-09-13T00:00:00")]

/-- A raw job whose `client_info.rating` is present but not parseable
as a decimal number. -/
def c8BadJob : RawJob :=
  { posted_time := "2 hours ago"
    job_uid := Val.vStr "123"
    job_title := Val.vStr "title"
    job_url := Val.vStr "url"
    description := none
    client_info := some [("rating", Val.vStr "N/A")]
    job_details := none
    skills := none
    proposals := none }

/-- A raw job whose `client_info` carries no `rating` key at all. -/
def c8NoRatingJob : RawJob :=
  { posted_time := "2 hours ago"
    job_uid := Val.vStr "123"
    job_title := Val.vStr "title"
    job_url := Val.vStr "url"
    description := none
    client_info := some [("location", Val.vStr "US")]
    job_details := none
    skills := none
    proposals := none }

/-! ### Helper lemmas -/

theorem upload_eq_go (dedup : Bool) (field : String) (snap : List Row)
    (rows : List Row) (addOk : Nat → Bool) (sid : Nat) :
    uploadMultipleRows dedup field snap rows addOk sid
      = uploadGo dedup field snap addOk rows 0 sid := by
  unfold uploadMultipleRows
  cases rows with
  | nil => simp [uploadGo]
  | cons r rs => simp

theorem rowGet?_processRow (r : Row) (f : String) :
    rowGet? (processRow r) f = (rowGet? r f).map processVal := by
  induction r with
  | nil => rfl
  | cons p t ih =>
    obtain ⟨k, v⟩ := p
    simp only [processRow, List.map, rowGet?, List.find?] at *
    by_cases hk : (k == f) = true
    · simp [hk]
    · simp only [Bool.not_eq_true] at hk
      simp only [hk]
      exact ih

theorem rowGet?_insertId (n : Nat) (p : Row) (f : String) (hf : f ≠ "id") :
    rowGet? (insertId n p) f = rowGet? p f := by
  have : (("id" : String) == f) = false := by
    simp [BEq.beq]
    exact fun h => hf h.symm
  simp [insertId, rowGet?, List.find?, this]

theorem requestAttempts_all_fail (errs : Nat → String) :
    ∀ (k i : Nat) (last : String),
      requestAttempts (fun j => (Except.error (errs j) : Except String Row))
        (k + 1) i last = Except.error (errs (i + k)) := by
  intro k
  induction k with
  | zero => intro i last; simp [requestAttempts]
  | succ m ih =>
    intro i last
    show requestAttempts _ (m + 1 + 1) i last = _
    rw [show requestAttempts (fun j => (Except.error (errs j) : Except String Row))
          (m + 1 + 1) i last
        = requestAttempts (fun j => (Except.error (errs j) : Except String Row))
          (m + 1) (i + 1) (errs i) from rfl]
    rw [ih (i + 1) (errs i)]
    have h2 : i + 1 + m = i + (m + 1) := by omega
    rw [h2]

theorem getAllRows_first_page_error (fp : Nat → Except String Page)
    (fuel : Nat) (e : String) (h : fp 1 = Except.error e) :
    getAllRows fp fuel = [] := by
  unfold getAllRows
  cases fuel with
  | zero => rfl
  | succ n => unfold getAllRowsGo; rw [h]

/-- C5 (code bug): `clean_up_old_rows` preserves an old row whose
date carries a trailing `Z` — the `Z` is replaced by `+00:00`, the
parse yields a timezone-aware datetime, and the comparison with the
naive `datetime.now()` cutoff raises `TypeError`, which the per-row
handler catches, skipping (preserving) the row.  The identical old
instant written without a timezone is deleted, and the claim's own
31-day/29-day naive examples behave as it states — the divergence is
exactly the tolerated-`Z` case the claim includes in the
delete-eligible set. -/
theorem clean_up_old_rows_z_preserved :
    cleanUpOldRowsCount c5Now 30 "created_on" (fun _ => true) [c5RowAware] = 0
    ∧ cleanUpOldRowsRemaining c5Now 30 "created_on" (fun _ => true) [c5RowAware]
        = [c5RowAware]
    ∧ cleanUpOldRowsCount c5Now 30 "created_on" (fun _ => true) [c5RowNaive] = 1
    ∧ cleanUpOldRowsRemaining c5Now 30 "created_on" (fun _ => true) [c5RowNaive] = []
    ∧ cleanUpOldRowsCount c5Now 30 "created_on" (fun _ => true) [c5Row31] = 1
    ∧ cleanUpOldRowsCount c5Now 30 "created_on" (fun _ => true) [c5Row29] = 0 :=
  ⟨by decide, by decide, by decide, by decide, by decide, by decide⟩

/-- C6 (counterexample): a listing whose page fetch fails returns the
same `[]` as a successful listing of an empty table — the caller
cannot distinguish a failed listing from an empty collection,
contradicting the claim that every client operation signals failure. -/
theorem get_all_rows_failure_indistinguishable :
    getAllRows (fun _ => Except.error "connection error") 5
      = getAllRows (fun _ => Except.ok ⟨[], false⟩) 5
    ∧ getAllRows (fun _ => Except.error "connection error") 5 = [] := by
  constructor <;> decide

/-- C6 (amended): `_request_with_retry` re-raises the LAST error once
attempts are exhausted, and `get_row`, `add_row`, `update_row`,
`delete_row` map that failure to `None`/`False`, distinguishable from
every success value; `get_all_rows`, however, catches the error and
returns `[]`, which coincides with a successful empty listing. -/
theorem baserow_ops_signal_failure :
    (∀ (n : Nat) (errs : Nat → String), 0 < n →
      requestWithRetry n (fun i => (Except.error (errs i) : Except String Row))
        = Except.error (errs (n - 1)))
    ∧ (∀ (e : String) (r : Row),
        addRowOp (Except.error e) = none ∧ addRowOp (Except.ok r) = some r
        ∧ addRowOp (Except.error e) ≠ addRowOp (Except.ok r))
    ∧ (∀ (e : String) (r : Row),
        getRowOp (Except.error e) = none ∧ getRowOp (Except.ok r) = some r
        ∧ getRowOp (Except.error e) ≠ getRowOp (Except.ok r))
    ∧ (∀ (e : String) (r : Row),
        updateRowOp (Except.error e) = none ∧ updateRowOp (Except.ok r) = some r
        ∧ updateRowOp (Except.error e) ≠ updateRowOp (Except.ok r))
    ∧ (∀ e : String,
        deleteRowOp (Except.error e) = false ∧ deleteRowOp (Except.ok ()) = true)
    ∧ (∀ (fp : Nat → Except String Page) (fuel : Nat) (e : String),
        fp 1 = Except.error e → getAllRows fp fuel = []) := by
  refine ⟨?_, ?_, ?_, ?_, ?_, ?_⟩
  · intro n errs hn
    obtain ⟨m, rfl⟩ : ∃ m, n = m + 1 := ⟨n - 1, by omega⟩
    unfold requestWithRetry
    rw [requestAttempts_all_fail errs m 0 "None"]
    simp
  · intro e r; exact ⟨rfl, rfl, by simp [addRowOp]⟩
  · intro e r; exact ⟨rfl, rfl, by simp [getRowOp]⟩
  · intro e r; exact ⟨rfl, rfl, by simp [updateRowOp]⟩
  · intro e; exact ⟨rfl, rfl⟩
  · exact getAllRows_first_page_error

/-- Witness for `baserow_ops_signal_failure` at concrete inputs. -/
theorem baserow_ops_signal_failure_witness :
    requestWithRetry 3 (fun i => (Except.error (toString i) : Except String Row))
      = Except.error (toString (3 - 1))
    ∧ getAllRows (fun _ => Except.error "boom") 4 = [] :=
  ⟨baserow_ops_signal_failure.1 3 (fun i => toString i) (by decide),
   baserow_ops_signal_failure.2.2.2.2.2 (fun _ => Except.error "boom") 4 "boom" rfl⟩

/-- C7 (counterexample): `"2 hours extra ago"` is not of the form
`"<N> <unit> ago"`, yet `parse_relative_time` accepts it and returns
`(ref - 2h, True)` instead of the claimed `(ref, False)`: the code
only checks that the whitespace-split has at least 3 tokens and that
the last one is `"ago"`, reading the number and unit from the first
two tokens and ignoring everything in between. -/
theorem parse_relative_time_extra_tokens :
    parseRelativeTime "2 hours extra ago" 0 = (-7200, true) := by decide

/-- C7 (amended): `parse_relative_time` maps the four literals to
their fixed offsets; any other string succeeds if and only if its
whitespace-split has at least 3 tokens, ends with `"ago"`, starts with
an integer, and has a recognized unit as its second token — extra
tokens before the final `"ago"` are accepted — in which case it
returns the reference minus number-times-unit; otherwise it returns
`(reference, False)`. -/
theorem parse_relative_time_amended :
    (∀ ref : Int,
      parseRelativeTime "yesterday" ref = (ref - 86400, true)
      ∧ parseRelativeTime "last week" ref = (ref - 7 * 86400, true)
      ∧ parseRelativeTime "last month" ref = (ref - 30 * 86400, true)
      ∧ parseRelativeTime "last year" ref = (ref - 365 * 86400, true))
    ∧ (∀ (s : String) (ref : Int),
        s ≠ "yesterday" → s ≠ "last week" → s ≠ "last month" → s ≠ "last year" →
        parseRelativeTime s ref =
          match (if 3 ≤ (pySplit s).length ∧ (pySplit s).getLast? = some "ago"
                 then (parsePyInt ((pySplit s).getD 0 "")).bind
                   (fun n => (unitOffset ((pySplit s).getD 1 "")).map
                     (fun off => n * off))
                 else none) with
          | some d => (ref - d, true)
          | none => (ref, false)) := by
  constructor
  · intro ref
    refine ⟨rfl, ?_, ?_, ?_⟩ <;> simp [parseRelativeTime]
  · intro s ref h1 h2 h3 h4
    unfold parseRelativeTime
    rw [if_neg h1, if_neg h2, if_neg h3, if_neg h4]
    by_cases hc : 3 ≤ (pySplit s).length ∧ (pySplit s).getLast? = some "ago"
    · rw [if_pos hc, if_pos hc]
      cases hp : parsePyInt ((pySplit s).getD 0 "") with
      | none => simp
      | some n =>
        simp only [Option.some_bind]
        unfold unitOffset
        split_ifs <;> simp
    · rw [if_neg hc, if_neg hc]

/-- Witness for `parse_relative_time_amended` at concrete inputs. -/
theorem parse_relative_time_amended_witness :
    parseRelativeTime "3 hours ago" 100 =
      match (if 3 ≤ (pySplit "3 hours ago").length
                ∧ (pySplit "3 hours ago").getLast? = some "ago"
             then (parsePyInt ((pySplit "3 hours ago").getD 0 "")).bind
               (fun n => (unitOffset ((pySplit "3 hours ago").getD 1 "")).map
                 (fun off => n * off))
             else none) with
      | some d => ((100 : Int) - d, true)
      | none => ((100 : Int), false) :=
  parse_relative_time_amended.2 "3 hours ago" 100
    (by decide) (by decide) (by decide) (by decide)

/-- C8 (counterexample): a raw record whose `client_info.rating` is
the unparsable string `"N/A"` makes `process_jobs_for_baserow` raise
`ValueError` — the conversion `float(...)` at `src/main.py` line 68 is
not wrapped in any `try` — so the record does not proceed through the
pipeline (and the whole batch is lost), contradicting the claimed
0.0 substitution for malformed ratings. -/
theorem process_rating_malformed_fatal :
    processJobsForBaserow 0 [c8BadJob] = Except.error ratingErrMsg := by rfl

/-- C8 (amended): a missing `client_info.rating` is substituted with
0.0 and the record proceeds; a present but unparsable rating raises an
uncaught `ValueError` that aborts the whole `process_jobs_for_baserow`
call — the record does not proceed. -/
theorem process_rating_amended :
    (∀ (now : Int) (job : RawJob),
      rowGet? (job.client_info.getD []) "rating" = none →
      ∃ r, processJob now job = Except.ok r
        ∧ rowGet? r "rating" = some (Val.vFloat 0))
    ∧ (∀ (now : Int) (job : RawJob) (v : Val),
        rowGet? (job.client_info.getD []) "rating" = some v →
        floatOfVal v = none →
        processJob now job = Except.error ratingErrMsg
        ∧ processJobsForBaserow now [job] = Except.error ratingErrMsg) := by
  constructor
  · intro now job h
    have hd : rowGetD (job.client_info.getD []) "rating" (Val.vInt 0) = Val.vInt 0 := by
      simp [rowGetD, h]
    simp only [processJob, hd, floatOfVal]
    refine ⟨_, rfl, ?_⟩
    simp [rowGet?, List.find?]
  · intro now job v hv hfv
    have hd : rowGetD (job.client_info.getD []) "rating" (Val.vInt 0) = v := by
      simp [rowGetD, hv]
    have h1 : processJob now job = Except.error ratingErrMsg := by
      simp only [processJob, hd, hfv]
    refine ⟨h1, ?_⟩
    simp only [processJobsForBaserow, h1]
    rfl

/-- Witness for `process_rating_amended` at concrete jobs. -/
theorem process_rating_amended_witness :
    (∃ r, processJob 0 c8NoRatingJob = Except.ok r
      ∧ rowGet? r "rating" = some (Val.vFloat 0))
    ∧ (processJob 0 c8BadJob = Except.error ratingErrMsg
      ∧ processJobsForBaserow 0 [c8BadJob] = Except.error ratingErrMsg) :=
  ⟨process_rating_amended.1 0 c8NoRatingJob (by rfl),
   process_rating_amended.2 0 c8BadJob (Val.vStr "N/A") (by rfl) (by rfl)⟩
theorem uploadGo_empty_snap (f : String) :
    ∀ (rows : List Row) (idx nid : Nat),
      uploadGo true f [] (fun _ => true) rows idx nid = createAll rows nid := by
  intro rows
  induction rows with
  | nil => intro idx nid; rfl
  | cons r rs ih =>
    intro idx nid
    unfold uploadGo
    have hs : skipCond true f [] r = false := by simp [skipCond]
    rw [hs]
    simp only [Bool.false_eq_true, if_false, if_true]
    rw [ih (idx + 1) (nid + 1)]
    rfl

/-- C9: with an empty snapshot — whether the store is genuinely empty
or `get_all_rows` swallowed a fetch failure into `[]` — the duplicate
check is skipped entirely and every record is created. -/
theorem upload_with_empty_snapshot_creates_all :
    (∀ (rows : List Row) (f : String) (sid : Nat),
      uploadMultipleRows true f [] rows (fun _ => true) sid = createAll rows sid)
    ∧ (∀ (fp : Nat → Except String Page) (fuel : Nat) (e : String)
        (rows : List Row) (f : String) (sid : Nat),
        fp 1 = Except.error e →
        uploadMultipleRows true f (getAllRows fp fuel) rows (fun _ => true) sid
          = createAll rows sid) := by
  constructor
  · intro rows f sid
    rw [upload_eq_go, uploadGo_empty_snap]
  · intro fp fuel e rows f sid h
    rw [getAllRows_first_page_error fp fuel e h, upload_eq_go, uploadGo_empty_snap]

/-- Witness for `upload_with_empty_snapshot_creates_all`. -/
theorem upload_with_empty_snapshot_creates_all_witness :
    uploadMultipleRows true "job_uid"
      (getAllRows (fun _ => Except.error "fail") 3)
      [[("job_uid", Val.vInt 1)]] (fun _ => true) 7
    = createAll [[("job_uid", Val.vInt 1)]] 7 :=
  upload_with_empty_snapshot_creates_all.2 (fun _ => Except.error "fail") 3 "fail"
    [[("job_uid", Val.vInt 1)]] "job_uid" 7 rfl

theorem matchesDedup_self (r : Row) (n : Nat) :
    matchesDedup "job_uid" (insertId n (processRow r)) r = true := by
  unfold matchesDedup rowGetD
  rw [rowGet?_insertId _ _ _ (by decide), rowGet?_processRow]
  cases hv : rowGet? r "job_uid" with
  | none => simp [intOfVal]
  | some v =>
    cases v with
    | vInt k => simp [processVal, intOfVal]
    | vStr s => cases hp : parsePyInt s <;> simp [processVal, intOfVal, hp, pyStr]
    | vFloat q => simp [processVal, intOfVal]
    | vNone => simp [processVal, intOfVal, pyStr]
    | vNested s => cases hp : parsePyInt s <;> simp [processVal, intOfVal, hp, pyStr]

theorem uploadGo_mem (f : String) (snap : List Row) :
    ∀ (rows : List Row) (idx nid : Nat) (r : Row), r ∈ rows →
      skipCond true f snap r = false →
      ∃ m, insertId m (processRow r) ∈ uploadGo true f snap (fun _ => true) rows idx nid := by
  intro rows
  induction rows with
  | nil => intro idx nid r h _; exact absurd h (List.not_mem_nil r)
  | cons x xs ih =>
    intro idx nid r hmem hskip
    rcases List.mem_cons.mp hmem with rfl | hx
    · unfold uploadGo
      rw [hskip]
      simp only [Bool.false_eq_true, if_false, if_true]
      exact ⟨nid, List.mem_cons_self _ _⟩
    · unfold uploadGo
      by_cases hs : skipCond true f snap x = true
      · rw [hs]
        simp only [if_true]
        exact ih idx nid r hx hskip
      · rw [Bool.not_eq_true] at hs
        rw [hs]
        simp only [Bool.false_eq_true, if_false, if_true]
        obtain ⟨m, hm⟩ := ih (idx + 1) (nid + 1) r hx hskip
        exact ⟨m, List.mem_cons_of_mem _ hm⟩

theorem uploadGo_all_skip (f : String) (snap : List Row) :
    ∀ (rows : List Row) (idx nid : Nat),
      (∀ r ∈ rows, skipCond true f snap r = true) →
      uploadGo true f snap (fun _ => true) rows idx nid = [] := by
  intro rows
  induction rows with
  | nil => intro idx nid _; rfl
  | cons x xs ih =>
    intro idx nid h
    unfold uploadGo
    rw [h x (List.mem_cons_self _ _)]
    simp only [if_true]
    exact ih idx nid (fun r hr => h r (List.mem_cons_of_mem _ hr))

/-- C1: uploading the same batch of records twice against the same
store is idempotent: when the second call's snapshot contains the
rows created by the first call (appended to the original snapshot)
and all adds succeed, every record of the batch matches an existing
row on `job_uid` under the duplicate test, is skipped, and the second
call creates zero rows. -/
theorem upload_second_call_creates_nothing (snap batch : List Row) (sid1 sid2 : Nat) :
    uploadMultipleRows true "job_uid"
        (snap ++ uploadMultipleRows true "job_uid" snap batch (fun _ => true) sid1)
        batch (fun _ => true) sid2 = []
    ∧ ∀ r ∈ batch,
        (snap ++ uploadMultipleRows true "job_uid" snap batch (fun _ => true) sid1).any
          (fun e => matchesDedup "job_uid" e r) = true := by
  have hA : ∀ r ∈ batch,
      (snap ++ uploadMultipleRows true "job_uid" snap batch (fun _ => true) sid1).any
        (fun e => matchesDedup "job_uid" e r) = true := by
    intro r hr
    rw [List.any_append]
    by_cases hs : snap.any (fun e => matchesDedup "job_uid" e r) = true
    · simp [hs]
    · rw [Bool.not_eq_true] at hs
      have hskip : skipCond true "job_uid" snap r = false := by
        simp [skipCond, hs]
      obtain ⟨m, hm⟩ := uploadGo_mem "job_uid" snap batch 0 sid1 r hr hskip
      rw [← upload_eq_go] at hm
      have h2 : (uploadMultipleRows true "job_uid" snap batch (fun _ => true) sid1).any
          (fun e => matchesDedup "job_uid" e r) = true := by
        rw [List.any_eq_true]
        exact ⟨_, hm, matchesDedup_self r m⟩
      simp [h2]
  refine ⟨?_, hA⟩
  have hskip2 : ∀ r ∈ batch,
      skipCond true "job_uid"
        (snap ++ uploadMultipleRows true "job_uid" snap batch (fun _ => true) sid1) r
        = true := by
    intro r hr
    have h2 := hA r hr
    have hne : (snap ++ uploadMultipleRows true "job_uid" snap batch
        (fun _ => true) sid1).isEmpty = false := by
      cases hsc : snap ++ uploadMultipleRows true "job_uid" snap batch (fun _ => true) sid1 with
      | nil => rw [hsc] at h2; simp [List.any] at h2
      | cons a as => rfl
    simp [skipCond, hne, h2]
  rw [upload_eq_go]
  exact uploadGo_all_skip _ _ batch 0 sid2 hskip2

theorem matchesDedup_eq_specMatch (f : String) (e r : Row) :
    matchesDedup f e r = specMatch f e r := by
  unfold matchesDedup specMatch
  cases intOfVal (rowGetD e f (Val.vInt 0)) <;>
    cases intOfVal (rowGetD r f (Val.vInt 0)) <;> rfl

theorem uploadGo_erase_skipped (f : String) (snap : List Row)
    (addOk : Nat → Bool) (r : Row) (hskip : skipCond true f snap r = true) :
    ∀ (rows : List Row) (idx nid : Nat), r ∈ rows →
      uploadGo true f snap addOk (rows.erase r) idx nid
        = uploadGo true f snap addOk rows idx nid := by
  intro rows
  induction rows with
  | nil => intro idx nid h; exact absurd h (List.not_mem_nil r)
  | cons x xs ih =>
    intro idx nid hmem
    by_cases hx : x = r
    · subst hx
      rw [List.erase_cons_head]
      conv_rhs => unfold uploadGo
      rw [hskip]
      simp only [if_true]
    · rw [List.erase_cons_tail]
      · have hxs : r ∈ xs := by
          rcases List.mem_cons.mp hmem with h | h
          · exact absurd h.symm hx
          · exact h
        unfold uploadGo
        by_cases hs : skipCond true f snap x = true
        · rw [hs]
          simp only [if_true]
          exact ih idx nid hxs
        · rw [Bool.not_eq_true] at hs
          rw [hs]
          simp only [Bool.false_eq_true, if_false]
          by_cases ha : addOk idx = true
          · rw [ha]
            simp only [if_true]
            rw [ih (idx + 1) (nid + 1) hxs]
          · rw [Bool.not_eq_true] at ha
            rw [ha]
            simp only [Bool.false_eq_true, if_false]
            exact ih (idx + 1) nid hxs
      · simp [hx]

/-- C2: the source's sequential int-then-string duplicate test equals
the spec's policy (integer conversion of both sides first, string
equality on a conversion failure on either side), and a record that
matches some snapshot row under this policy contributes nothing to the
call: erasing it from the batch leaves the created rows unchanged —
no row is created for it (and `upload_multiple_rows` performs no
updates at all). -/
theorem dedup_policy_skips_matching_record (f : String) (snap rows : List Row)
    (r : Row) (sid : Nat) (hr : r ∈ rows)
    (hmatch : snap.any (fun e => specMatch f e r) = true) :
    (∀ (e r' : Row), matchesDedup f e r' = specMatch f e r')
    ∧ uploadMultipleRows true f snap rows (fun _ => true) sid
        = uploadMultipleRows true f snap (rows.erase r) (fun _ => true) sid := by
  refine ⟨matchesDedup_eq_specMatch f, ?_⟩
  have hany : snap.any (fun e => matchesDedup f e r) = true := by
    rw [show (fun e => matchesDedup f e r) = (fun e => specMatch f e r) from
      funext (fun e => matchesDedup_eq_specMatch f e r)]
    exact hmatch
  have hne : snap.isEmpty = false := by
    cases hsc : snap with
    | nil => rw [hsc] at hany; simp [List.any] at hany
    | cons a as => rfl
  have hskip : skipCond true f snap r = true := by
    simp [skipCond, hne, hany]
  rw [upload_eq_go, upload_eq_go]
  exact (uploadGo_erase_skipped f snap (fun _ => true) r hskip rows 0 sid hr).symm

/-- Witness for `dedup_policy_skips_matching_record`. -/
theorem dedup_policy_skips_matching_record_witness :
    (∀ (e r' : Row), matchesDedup "job_uid" e r' = specMatch "job_uid" e r')
    ∧ uploadMultipleRows true "job_uid" [[("job_uid", Val.vInt 5)]]
        [[("job_uid", Val.vInt 5)], [("job_uid", Val.vInt 6)]] (fun _ => true) 1
      = uploadMultipleRows true "job_uid" [[("job_uid", Val.vInt 5)]]
          ([[("job_uid", Val.vInt 5)], [("job_uid", Val.vInt 6)]].erase
            [("job_uid", Val.vInt 5)]) (fun _ => true) 1 :=
  dedup_policy_skips_matching_record "job_uid" [[("job_uid", Val.vInt 5)]]
    [[("job_uid", Val.vInt 5)], [("job_uid", Val.vInt 6)]]
    [("job_uid", Val.vInt 5)] 1 (by decide) (by decide)

theorem uploadGo_cons_skip (f : String) (snap : List Row) (addOk : Nat → Bool)
    (r : Row) (rest : List Row) (idx nid : Nat)
    (hskip : skipCond true f snap r = true) :
    uploadGo true f snap addOk (r :: rest) idx nid
      = uploadGo true f snap addOk rest idx nid := by
  unfold uploadGo
  rw [hskip]
  simp only [if_true]
  cases rest with
  | nil => rfl
  | cons y ys => rfl

theorem uploadGo_cons_create (f : String) (snap : List Row) (r : Row)
    (rest : List Row) (idx nid : Nat)
    (hskip : skipCond true f snap r = false) :
    uploadGo true f snap (fun _ => true) (r :: rest) idx nid
      = insertId nid (processRow r)
        :: uploadGo true f snap (fun _ => true) rest (idx + 1) (nid + 1) := by
  unfold uploadGo
  rw [hskip]
  simp only [Bool.false_eq_true, if_false, if_true]
  cases rest with
  | nil => rfl
  | cons y ys => rfl

theorem uploadGo_append (f : String) (snap : List Row) :
    ∀ (p l : List Row) (idx nid : Nat),
      ∃ pre c a, uploadGo true f snap (fun _ => true) (p ++ l) idx nid
        = pre ++ uploadGo true f snap (fun _ => true) l (idx + a) (nid + c) := by
  intro p
  induction p with
  | nil => intro l idx nid; exact ⟨[], 0, 0, by simp⟩
  | cons x xs ih =>
    intro l idx nid
    rw [List.cons_append]
    by_cases hs : skipCond true f snap x = true
    · rw [uploadGo_cons_skip f snap _ x _ idx nid hs]
      exact ih l idx nid
    · rw [Bool.not_eq_true] at hs
      rw [uploadGo_cons_create f snap x _ idx nid hs]
      obtain ⟨pre, c, a, hpca⟩ := ih l (idx + 1) (nid + 1)
      refine ⟨insertId nid (processRow x) :: pre, c + 1, a + 1, ?_⟩
      rw [hpca,
        show idx + 1 + a = idx + (a + 1) from by omega,
        show nid + 1 + c = nid + (c + 1) from by omega]
      rfl

/-- C3: when a single call's batch contains two records with equal
`job_uid` and the snapshot fetched at the start of the call matches
neither, both records are created (at distinct server ids): the
duplicate check only ever consults the snapshot fetched once before
the loop, never the rows created earlier in the same call. -/
theorem within_batch_duplicates_both_created (snap p q t : List Row)
    (r1 r2 : Row) (sid : Nat)
    (_huid : rowGet? r1 "job_uid" = rowGet? r2 "job_uid")
    (h1 : snap.any (fun e => matchesDedup "job_uid" e r1) = false)
    (h2 : snap.any (fun e => matchesDedup "job_uid" e r2) = false) :
    ∃ n1 n2 : Nat, n1 < n2
      ∧ insertId n1 (processRow r1)
          ∈ uploadMultipleRows true "job_uid" snap (p ++ r1 :: (q ++ r2 :: t))
              (fun _ => true) sid
      ∧ insertId n2 (processRow r2)
          ∈ uploadMultipleRows true "job_uid" snap (p ++ r1 :: (q ++ r2 :: t))
              (fun _ => true) sid := by
  have hskip1 : skipCond true "job_uid" snap r1 = false := by simp [skipCond, h1]
  have hskip2 : skipCond true "job_uid" snap r2 = false := by simp [skipCond, h2]
  rw [upload_eq_go]
  obtain ⟨pre, c, a, he⟩ :=
    uploadGo_append "job_uid" snap p (r1 :: (q ++ r2 :: t)) 0 sid
  rw [he, uploadGo_cons_create "job_uid" snap r1 _ _ _ hskip1]
  obtain ⟨pre2, c2, a2, he2⟩ :=
    uploadGo_append "job_uid" snap q (r2 :: t) (0 + a + 1) (sid + c + 1)
  rw [he2, uploadGo_cons_create "job_uid" snap r2 _ _ _ hskip2]
  refine ⟨sid + c, sid + c + 1 + c2, by omega, ?_, ?_⟩
  · exact List.mem_append_right pre (List.mem_cons_self _ _)
  · refine List.mem_append_right pre (List.mem_cons_of_mem _ ?_)
    exact List.mem_append_right pre2 (List.mem_cons_self _ _)

/-- Witness for `within_batch_duplicates_both_created`. -/
theorem within_batch_duplicates_both_created_witness :
    ∃ n1 n2 : Nat, n1 < n2
      ∧ insertId n1 (processRow [("job_uid", Val.vInt 5)])
          ∈ uploadMultipleRows true "job_uid" []
              ([] ++ [("job_uid", Val.vInt 5)] :: ([] ++ [("job_uid", Val.vInt 5)] :: []))
              (fun _ => true) 1
      ∧ insertId n2 (processRow [("job_uid", Val.vInt 5)])
          ∈ uploadMultipleRows true "job_uid" []
              ([] ++ [("job_uid", Val.vInt 5)] :: ([] ++ [("job_uid", Val.vInt 5)] :: []))
              (fun _ => true) 1 :=
  within_batch_duplicates_both_created [] [] [] [] [("job_uid", Val.vInt 5)]
    [("job_uid", Val.vInt 5)] 1 rfl (by decide) (by decide)

theorem collectUids_foldl_mono :
    ∀ (rows : List Row) (acc : List String) (u : String),
      u ∈ acc → u ∈ List.foldl collectUidsStep acc rows := by
  intro rows
  induction rows with
  | nil => intro acc u h; exact h
  | cons r rs ih =>
    intro acc u h
    rw [List.foldl_cons]
    refine ih _ u ?_
    unfold collectUidsStep
    by_cases hc : uidStr r = "" ∨ uidStr r ∈ acc
    · rw [if_pos hc]; exact h
    · rw [if_neg hc]; exact List.mem_append_left _ h

theorem collectUids_foldl_complete :
    ∀ (rows : List Row) (acc : List String) (r : Row),
      r ∈ rows → uidStr r ≠ "" →
      uidStr r ∈ List.foldl collectUidsStep acc rows := by
  intro rows
  induction rows with
  | nil => intro acc r h; exact absurd h (List.not_mem_nil r)
  | cons x xs ih =>
    intro acc r hmem hne
    rw [List.foldl_cons]
    rcases List.mem_cons.mp hmem with rfl | hx
    · refine collectUids_foldl_mono xs _ _ ?_
      unfold collectUidsStep
      by_cases hc : uidStr r = "" ∨ uidStr r ∈ acc
      · rcases hc with hc | hc
        · exact absurd hc hne
        · rw [if_pos (Or.inr hc)]; exact hc
      · rw [if_neg hc]; exact List.mem_append_right _ (List.mem_singleton.mpr rfl)
    · exact ih _ r hx hne

theorem collectUids_foldl_ne_empty :
    ∀ (rows : List Row) (acc : List String),
      (∀ u ∈ acc, u ≠ "") →
      ∀ u ∈ List.foldl collectUidsStep acc rows, u ≠ "" := by
  intro rows
  induction rows with
  | nil => intro acc hacc u hu; exact hacc u hu
  | cons r rs ih =>
    intro acc hacc u hu
    rw [List.foldl_cons] at hu
    refine ih _ ?_ u hu
    intro v hv
    unfold collectUidsStep at hv
    by_cases hc : uidStr r = "" ∨ uidStr r ∈ acc
    · rw [if_pos hc] at hv; exact hacc v hv
    · rw [if_neg hc] at hv
      rcases List.mem_append.mp hv with h | h
      · exact hacc v h
      · rw [List.mem_singleton.mp h]
        push_neg at hc
        exact hc.1

theorem mem_findDuplicates (rows : List Row) (g : String × List Row)
    (hg : g ∈ findDuplicates rows) :
    g.1 ≠ "" ∧ g.2 = rows.filter (fun r => uidStr r == g.1) ∧ 1 < g.2.length := by
  unfold findDuplicates at hg
  obtain ⟨hmem, hlen⟩ := List.mem_filter.mp hg
  obtain ⟨u, hu, hgu⟩ := List.mem_map.mp hmem
  refine ⟨?_, ?_, by exact_mod_cast of_decide_eq_true hlen⟩
  · rw [← hgu]
    exact collectUids_foldl_ne_empty rows [] (fun v hv => absurd hv (List.not_mem_nil v)) u hu
  · rw [← hgu]

theorem findDuplicates_ext (rows : List Row) (g g' : String × List Row)
    (hg : g ∈ findDuplicates rows) (hg' : g' ∈ findDuplicates rows)
    (h : g.1 = g'.1) : g = g' := by
  obtain ⟨-, h2, -⟩ := mem_findDuplicates rows g hg
  obtain ⟨-, h2', -⟩ := mem_findDuplicates rows g' hg'
  have : g.2 = g'.2 := by rw [h2, h2', h]
  exact Prod.ext h this

theorem uid_mem_findDuplicates (rows : List Row) (u : String) (r : Row)
    (hr : r ∈ rows) (hu : uidStr r = u) (hne : u ≠ "")
    (hlen : 1 < (rows.filter (fun x => uidStr x == u)).length) :
    (u, rows.filter (fun x => uidStr x == u)) ∈ findDuplicates rows := by
  unfold findDuplicates
  refine List.mem_filter.mpr ⟨?_, by simpa using hlen⟩
  refine List.mem_map.mpr ⟨u, ?_, rfl⟩
  rw [← hu] at hne ⊢
  exact collectUids_foldl_complete rows [] r hr hne

theorem keyLe_refl (a : Row) : keyLe a a := Or.inr ⟨rfl, le_refl _⟩

theorem sortedGroup_perm (grp : List Row) : List.Perm (sortedGroup true grp) grp := by
  unfold sortedGroup
  simp only [if_true]
  exact List.perm_insertionSort descRel grp

theorem sortedGroup_sorted (grp : List Row) :
    List.Sorted descRel (sortedGroup true grp) := by
  unfold sortedGroup
  simp only [if_true]
  exact List.sorted_insertionSort descRel grp

theorem sortedGroup_head_max (grp : List Row) (keep : Row) (tl : List Row)
    (h : sortedGroup true grp = keep :: tl) :
    ∀ r ∈ grp, keyLe r keep := by
  intro r hr
  have hmem : r ∈ keep :: tl := h ▸ (sortedGroup_perm grp).symm.subset hr
  rcases List.mem_cons.mp hmem with rfl | htl
  · exact keyLe_refl r
  · have hs := sortedGroup_sorted grp
    rw [h] at hs
    exact List.rel_of_sorted_cons hs r htl

theorem mem_foldr_append {α β : Type} (f : α → List β) (L : List α) (x : β) :
    x ∈ L.foldr (fun g acc => f g ++ acc) [] ↔ ∃ g ∈ L, x ∈ f g := by
  induction L with
  | nil => simp
  | cons a as ih =>
    simp only [List.foldr_cons, List.mem_append, ih, List.mem_cons]
    constructor
    · rintro (h | ⟨g, hg, hx⟩)
      · exact ⟨a, Or.inl rfl, h⟩
      · exact ⟨g, Or.inr hg, hx⟩
    · rintro ⟨g, rfl | hg, hx⟩
      · exact Or.inl hx
      · exact Or.inr ⟨g, hg, hx⟩

theorem mem_deletedDupRows (keepNewest : Bool) (delOk : Val → Bool)
    (rows : List Row) (x : Row) :
    x ∈ deletedDupRows keepNewest delOk rows
      ↔ ∃ g ∈ findDuplicates rows,
          x ∈ (rowsToDelete keepNewest g.2).filter (delAttemptOk delOk) := by
  unfold deletedDupRows
  exact mem_foldr_append _ _ x

theorem rowWf_truthy_id (r : Row) (h : rowWf r = true) :
    truthyVal (idValOf r) = true := by
  unfold rowWf at h
  rw [Bool.and_eq_true_iff] at h
  obtain ⟨hid, -⟩ := h
  unfold rowIdOk at hid
  unfold idValOf
  cases hv : rowGet? r "id" with
  | none => rw [hv] at hid; exact absurd hid (by simp)
  | some v =>
    rw [hv] at hid
    cases v with
    | vInt n => simpa [truthyVal] using hid
    | vStr s => exact absurd hid (by simp)
    | vFloat q => exact absurd hid (by simp)
    | vNone => exact absurd hid (by simp)
    | vNested s => exact absurd hid (by simp)

theorem group_subset_rows (rows : List Row) (g : String × List Row)
    (hg : g ∈ findDuplicates rows) : g.2 ⊆ rows := by
  obtain ⟨-, h2, -⟩ := mem_findDuplicates rows g hg
  rw [h2]
  exact List.filter_subset' rows

theorem rowsToDelete_subset (keepNewest : Bool) (grp : List Row) :
    rowsToDelete keepNewest grp ⊆ grp := by
  intro x hx
  unfold rowsToDelete at hx
  cases keepNewest with
  | true => exact (sortedGroup_perm grp).subset (List.tail_subset _ hx)
  | false =>
    unfold sortedGroup at hx
    simp only [Bool.false_eq_true, if_false] at hx
    exact (List.perm_insertionSort keyLe grp).subset (List.tail_subset _ hx)

theorem delFilter_eq_tail (rows : List Row)
    (hwf : ∀ r ∈ rows, rowWf r = true) (g : String × List Row)
    (hg : g ∈ findDuplicates rows) :
    (rowsToDelete true g.2).filter (delAttemptOk (fun _ => true))
      = rowsToDelete true g.2 := by
  rw [List.filter_eq_self]
  intro r hr
  have hrow : r ∈ rows := group_subset_rows rows g hg (rowsToDelete_subset true g.2 hr)
  unfold delAttemptOk
  rw [rowWf_truthy_id r (hwf r hrow)]
  rfl

theorem deletedDupRows_subset (rows : List Row) :
    deletedDupRows true (fun _ => true) rows ⊆ rows := by
  intro x hx
  obtain ⟨g, hg, hxg⟩ := (mem_deletedDupRows true (fun _ => true) rows x).mp hx
  exact group_subset_rows rows g hg
    (rowsToDelete_subset true g.2 (List.filter_subset' _ hxg))

theorem any_id_match_iff (rows dr : List Row)
    (hnd : (rows.map idValOf).Nodup) (hsub : dr ⊆ rows)
    (r : Row) (hr : r ∈ rows) :
    dr.any (fun d => idValOf d == idValOf r) = true ↔ r ∈ dr := by
  rw [List.any_eq_true]
  constructor
  · rintro ⟨d, hd, hmatch⟩
    have heq : idValOf d = idValOf r := by simpa using hmatch
    have : d = r := List.inj_on_of_nodup_map hnd (hsub hd) hr heq
    exact this ▸ hd
  · intro h
    exact ⟨r, h, by simp⟩

theorem filter_eq_singleton_of_unique {α : Type} (p : α → Bool) :
    ∀ (l : List α) (a : α), l.Nodup → a ∈ l → p a = true →
      (∀ b ∈ l, b ≠ a → p b = false) → l.filter p = [a] := by
  intro l
  induction l with
  | nil => intro a _ ha; exact absurd ha (List.not_mem_nil a)
  | cons x xs ih =>
    intro a hnd ha hpa hother
    rcases List.mem_cons.mp ha with rfl | haxs
    · rw [List.filter_cons_of_pos hpa]
      have hxs : xs.filter p = [] := by
        rw [List.filter_eq_nil_iff]
        intro b hb
        have hba : b ≠ a := by
          intro hcon
          exact (List.nodup_cons.mp hnd).1 (hcon ▸ hb)
        simp [hother b (List.mem_cons_of_mem _ hb) hba]
      rw [hxs]
    · have hxa : x ≠ a := by
        intro hcon
        exact (List.nodup_cons.mp hnd).1 (hcon ▸ haxs)
      rw [List.filter_cons_of_neg (by simp [hother x (List.mem_cons_self _ _) hxa])]
      exact ih a (List.nodup_cons.mp hnd).2 haxs hpa
        (fun b hb => hother b (List.mem_cons_of_mem _ hb))

theorem foldr_append_length {α β : Type} (f : α → List β) (L : List α) :
    (L.foldr (fun g acc => f g ++ acc) []).length
      = (L.map (fun g => (f g).length)).sum := by
  induction L with
  | nil => rfl
  | cons a as ih => simp [List.foldr_cons, ih]

theorem sortedGroup_length (grp : List Row) :
    (sortedGroup true grp).length = grp.length :=
  (sortedGroup_perm grp).length_eq

theorem group_keep_and_tail (rows : List Row)
    (hnd : (rows.map idValOf).Nodup)
    (g : String × List Row) (hg : g ∈ findDuplicates rows) :
    ∃ keep tl, sortedGroup true g.2 = keep :: tl
      ∧ keep ∈ g.2 ∧ (∀ r ∈ g.2, keyLe r keep)
      ∧ keep ∉ tl ∧ rowsToDelete true g.2 = tl := by
  obtain ⟨-, hfil, hlen⟩ := mem_findDuplicates rows g hg
  have hslen : 0 < (sortedGroup true g.2).length := by
    rw [sortedGroup_length]; omega
  obtain ⟨keep, tl, hsort⟩ :=
    List.exists_cons_of_ne_nil (List.ne_nil_of_length_pos hslen)
  have hrowsnd : rows.Nodup := List.Nodup.of_map idValOf hnd
  have hgnd : g.2.Nodup := by rw [hfil]; exact List.Nodup.filter _ hrowsnd
  have hsortnd : (keep :: tl).Nodup := hsort ▸ (sortedGroup_perm g.2).symm.nodup hgnd
  refine ⟨keep, tl, hsort, ?_, sortedGroup_head_max g.2 keep tl hsort, ?_, ?_⟩
  · exact (sortedGroup_perm g.2).subset (hsort ▸ List.mem_cons_self keep tl)
  · exact (List.nodup_cons.mp hsortnd).1
  · unfold rowsToDelete
    rw [hsort]
    rfl

theorem mem_deletedDupRows_wf (rows : List Row)
    (hwf : ∀ r ∈ rows, rowWf r = true) (x : Row) :
    x ∈ deletedDupRows true (fun _ => true) rows
      ↔ ∃ g ∈ findDuplicates rows, x ∈ rowsToDelete true g.2 := by
  rw [mem_deletedDupRows]
  constructor
  · rintro ⟨g, hg, hx⟩
    rw [delFilter_eq_tail rows hwf g hg] at hx
    exact ⟨g, hg, hx⟩
  · rintro ⟨g, hg, hx⟩
    refine ⟨g, hg, ?_⟩
    rw [delFilter_eq_tail rows hwf g hg]
    exact hx

theorem dup_group_after_delete (rows : List Row)
    (hwf : ∀ r ∈ rows, rowWf r = true)
    (hnd : (rows.map idValOf).Nodup)
    (g : String × List Row) (hg : g ∈ findDuplicates rows) :
    ∃ keep, keep ∈ g.2 ∧ (∀ r ∈ g.2, keyLe r keep)
      ∧ (storeAfterDeleteDuplicates true (fun _ => true) rows).filter
          (fun r => uidStr r == g.1) = [keep] := by
  obtain ⟨keep, tl, hsort, hkeepmem, hmax, hkeepnotl, htl⟩ :=
    group_keep_and_tail rows hnd g hg
  obtain ⟨hne, hfil, hlen⟩ := mem_findDuplicates rows g hg
  have hsub : g.2 ⊆ rows := group_subset_rows rows g hg
  have hkeep_rows : keep ∈ rows := hsub hkeepmem
  have hdr_iff : ∀ x ∈ rows,
      ((deletedDupRows true (fun _ => true) rows).any
        (fun d => idValOf d == idValOf x) = true
        ↔ x ∈ deletedDupRows true (fun _ => true) rows) :=
    fun x hx => any_id_match_iff rows _ hnd (deletedDupRows_subset rows) x hx
  have hkeepnd : keep ∉ deletedDupRows true (fun _ => true) rows := by
    intro hk
    obtain ⟨g', hg', hk'⟩ := (mem_deletedDupRows_wf rows hwf keep).mp hk
    have hkg' : keep ∈ g'.2 := rowsToDelete_subset true g'.2 hk'
    obtain ⟨-, hfil', -⟩ := mem_findDuplicates rows g' hg'
    have h1 : uidStr keep = g'.1 := by
      rw [hfil'] at hkg'
      simpa using (List.mem_filter.mp hkg').2
    have h2 : uidStr keep = g.1 := by
      rw [hfil] at hkeepmem
      simpa using (List.mem_filter.mp hkeepmem).2
    have : g' = g := findDuplicates_ext rows g' g hg' hg (h1 ▸ h2)
    rw [this, htl] at hk'
    exact hkeepnotl hk'
  have htl_dr : ∀ b ∈ tl, b ∈ deletedDupRows true (fun _ => true) rows :=
    fun b hb => (mem_deletedDupRows_wf rows hwf b).mpr ⟨g, hg, htl ▸ hb⟩
  have hrowsnd : rows.Nodup := List.Nodup.of_map idValOf hnd
  have hgnd : g.2.Nodup := by rw [hfil]; exact List.Nodup.filter _ hrowsnd
  refine ⟨keep, hkeepmem, hmax, ?_⟩
  unfold storeAfterDeleteDuplicates
  rw [List.filter_filter]
  have hcomm : (fun a => (uidStr a == g.1)
        && !((deletedDupRows true (fun _ => true) rows).any
              (fun d => idValOf d == idValOf a)))
      = (fun a => !((deletedDupRows true (fun _ => true) rows).any
              (fun d => idValOf d == idValOf a)) && (uidStr a == g.1)) := by
    funext a
    exact Bool.and_comm _ _
  rw [hcomm, ← List.filter_filter, ← hfil]
  refine filter_eq_singleton_of_unique _ g.2 keep hgnd hkeepmem ?_ ?_
  · have : ¬((deletedDupRows true (fun _ => true) rows).any
        (fun d => idValOf d == idValOf keep) = true) := by
      rw [hdr_iff keep hkeep_rows]
      exact hkeepnd
    rw [Bool.not_eq_true] at this
    rw [this]
    rfl
  · intro b hb hbne
    have hbrows : b ∈ rows := hsub hb
    have hbsort : b ∈ keep :: tl := hsort ▸ (sortedGroup_perm g.2).symm.subset hb
    have hbtl : b ∈ tl := by
      rcases List.mem_cons.mp hbsort with h | h
      · exact absurd h hbne
      · exact h
    have : (deletedDupRows true (fun _ => true) rows).any
        (fun d => idValOf d == idValOf b) = true := by
      rw [hdr_iff b hbrows]
      exact htl_dr b hbtl
    rw [this]
    rfl

theorem deleteDuplicatesCount_eq (rows : List Row)
    (hwf : ∀ r ∈ rows, rowWf r = true) :
    deleteDuplicatesCount true (fun _ => true) rows
      = ((findDuplicates rows).map (fun g => g.2.length - 1)).sum := by
  unfold deleteDuplicatesCount deletedDupRows
  rw [foldr_append_length]
  congr 1
  refine List.map_congr_left ?_
  intro g hg
  rw [delFilter_eq_tail rows hwf g hg]
  unfold rowsToDelete
  rw [List.length_tail, sortedGroup_length]

/-- C4: with every delete succeeding and well-formed distinct ids,
`delete_duplicates(keep_newest=True)` returns one deletion per excess
row of each duplicate group, and for each previously-duplicated
`job_uid` exactly one row with that uid remains: a row of the group
that is maximal in the `(posted_time_date, id)` order. -/
theorem delete_duplicates_keeps_newest (rows : List Row)
    (hwf : ∀ r ∈ rows, rowWf r = true)
    (hnd : (rows.map idValOf).Nodup) :
    deleteDuplicatesCount true (fun _ => true) rows
      = ((findDuplicates rows).map (fun g => g.2.length - 1)).sum
    ∧ ∀ g ∈ findDuplicates rows,
        ∃ keep, keep ∈ g.2 ∧ (∀ r ∈ g.2, keyLe r keep)
          ∧ (storeAfterDeleteDuplicates true (fun _ => true) rows).filter
              (fun r => uidStr r == g.1) = [keep] :=
  ⟨deleteDuplicatesCount_eq rows hwf,
   fun g hg => dup_group_after_delete rows hwf hnd g hg⟩

/-- Witness for `delete_duplicates_keeps_newest` on a concrete store
with one duplicated uid. -/
theorem delete_duplicates_keeps_newest_witness :
    deleteDuplicatesCount true (fun _ => true)
        [[("id", Val.vInt 1), ("job_uid", Val.vInt 5),
            ("posted_time_date", Val.vStr "2024-01-01")],
         [("id", Val.vInt 2), ("job_uid", Val.vInt 5),
            ("posted_time_date", Val.vStr "2024-02-01")],
         [("id", Val.vInt 3), ("job_uid", Val.vInt 7),
            ("posted_time_date", Val.vStr "2024-03-01")]]
      = ((findDuplicates
            [[("id", Val.vInt 1), ("job_uid", Val.vInt 5),
                ("posted_time_date", Val.vStr "2024-01-01")],
             [("id", Val.vInt 2), ("job_uid", Val.vInt 5),
                ("posted_time_date", Val.vStr "2024-02-01")],
             [("id", Val.vInt 3), ("job_uid", Val.vInt 7),
                ("posted_time_date", Val.vStr "2024-03-01")]]).map
          (fun g => g.2.length - 1)).sum
    ∧ ∀ g ∈ findDuplicates
          [[("id", Val.vInt 1), ("job_uid", Val.vInt 5),
              ("posted_time_date", Val.vStr "2024-01-01")],
           [("id", Val.vInt 2), ("job_uid", Val.vInt 5),
              ("posted_time_date", Val.vStr "2024-02-01")],
           [("id", Val.vInt 3), ("job_uid", Val.vInt 7),
              ("posted_time_date", Val.vStr "2024-03-01")]],
        ∃ keep, keep ∈ g.2 ∧ (∀ r ∈ g.2, keyLe r keep)
          ∧ (storeAfterDeleteDuplicates true (fun _ => true)
              [[("id", Val.vInt 1), ("job_uid", Val.vInt 5),
                  ("posted_time_date", Val.vStr "2024-01-01")],
               [("id", Val.vInt 2), ("job_uid", Val.vInt 5),
                  ("posted_time_date", Val.vStr "2024-02-01")],
               [("id", Val.vInt 3), ("job_uid", Val.vInt 7),
                  ("posted_time_date", Val.vStr "2024-03-01")]]).filter
              (fun r => uidStr r == g.1) = [keep] :=
  delete_duplicates_keeps_newest _ (by decide) (by decide)

/-- C10: rows whose `job_uid` is the integer 0 (the sentinel for
unparsable ids) stringify to `"0"`, which is not excluded by the
empty-string check, so they all land in one duplicate group, and
`delete_duplicates` deletes all but one of them. -/
theorem zero_uid_rows_form_one_group (rows : List Row)
    (hwf : ∀ r ∈ rows, rowWf r = true)
    (hnd : (rows.map idValOf).Nodup)
    (r0 : Row) (hr0 : r0 ∈ rows)
    (h0 : rowGet? r0 "job_uid" = some (Val.vInt 0))
    (hlen : 1 < (rows.filter (fun x => uidStr x == "0")).length) :
    uidStr r0 = "0"
    ∧ ("0", rows.filter (fun x => uidStr x == "0")) ∈ findDuplicates rows
    ∧ ((storeAfterDeleteDuplicates true (fun _ => true) rows).filter
        (fun x => uidStr x == "0")).length = 1 := by
  have huid : uidStr r0 = "0" := by
    unfold uidStr rowGetD
    rw [h0]
    rfl
  have hginfd := uid_mem_findDuplicates rows "0" r0 hr0 huid (by decide) hlen
  obtain ⟨keep, hkeepmem, -, hfilter⟩ :=
    dup_group_after_delete rows hwf hnd
      ("0", rows.filter (fun x => uidStr x == "0")) hginfd
  exact ⟨huid, hginfd, by rw [hfilter]; rfl⟩

/-- Witness for `zero_uid_rows_form_one_group` on a store with two
zero-uid rows. -/
theorem zero_uid_rows_form_one_group_witness :
    uidStr [("id", Val.vInt 1), ("job_uid", Val.vInt 0)] = "0"
    ∧ ("0", [[("id", Val.vInt 1), ("job_uid", Val.vInt 0)],
             [("id", Val.vInt 2), ("job_uid", Val.vInt 0)]].filter
          (fun x => uidStr x == "0")) ∈ findDuplicates
        [[("id", Val.vInt 1), ("job_uid", Val.vInt 0)],
         [("id", Val.vInt 2), ("job_uid", Val.vInt 0)]]
    ∧ ((storeAfterDeleteDuplicates true (fun _ => true)
          [[("id", Val.vInt 1), ("job_uid", Val.vInt 0)],
           [("id", Val.vInt 2), ("job_uid", Val.vInt 0)]]).filter
        (fun x => uidStr x == "0")).length = 1 :=
  zero_uid_rows_form_one_group
    [[("id", Val.vInt 1), ("job_uid", Val.vInt 0)],
     [("id", Val.vInt 2), ("job_uid", Val.vInt 0)]]
    (by decide) (by decide)
    [("id", Val.vInt 1), ("job_uid", Val.vInt 0)]
    (by decide) (by decide) (by decide)
